import Mathlib

/-!
# lantern: transform algebra (`include/matrix3x3.h`, `update_shader_mvp`)

Shallow embedding of `lantern::matrix3x3`, of the row-vector transform
`operator*(vector3, matrix3x3)`, of the example application's
`update_shader_mvp`, `on_key_down` and constructor (`main.cpp`), and of the
attribute interpolation modes of the transform/interpolation pipeline.

The C++ `float` is idealised as an exact scalar type `α`: the algebraic
operations are written over any type with `+`, `*`, `-`, `1`, `0`, and the
`<cmath>` functions `std::cos`, `std::sin` (and the square root used by
`vector3::normalized`) are passed in as functions `α → α`, so every definition
is executable; the theorems about angles instantiate them with `Real.cos`,
`Real.sin` and `Real.sqrt`. Where a statement is tested on `float` arithmetic
itself, the same definitions are instantiated with `binary32`, a model of the
finite IEEE 754 binary32 values with correctly rounded operations.
-/

namespace lantern

/-! ## Data model -/

/-- The three `float` members `x`, `y`, `z` of `lantern::vector3`. -/
@[ext]
structure vector3 (α : Type) where
  x : α
  y : α
  z : α
deriving DecidableEq

/-- The class `lantern::matrix3x3`: field `mij` is `values[i][j]`, in the
order of the nine-argument constructor (row-major). -/
@[ext]
structure matrix3x3 (α : Type) where
  m00 : α
  m01 : α
  m02 : α
  m10 : α
  m11 : α
  m12 : α
  m20 : α
  m21 : α
  m22 : α
deriving DecidableEq

/-- Component `j` of a vector3, counted `x`, `y`, `z`. -/
def vector3.component {α : Type} (v : vector3 α) : Fin 3 → α
  | 0 => v.x
  | 1 => v.y
  | 2 => v.z

/-- The array access `values[i][j]` (row `i`, column `j`). -/
def matrix3x3.values {α : Type} (m : matrix3x3 α) : Fin 3 → Fin 3 → α
  | 0, 0 => m.m00
  | 0, 1 => m.m01
  | 0, 2 => m.m02
  | 1, 0 => m.m10
  | 1, 1 => m.m11
  | 1, 2 => m.m12
  | 2, 0 => m.m20
  | 2, 1 => m.m21
  | 2, 2 => m.m22

/-- Row `i` of a matrix, as the vector3 of its three entries. -/
def matrix3x3.row {α : Type} (m : matrix3x3 α) (i : Fin 3) : vector3 α :=
  ⟨m.values i 0, m.values i 1, m.values i 2⟩

/-! ## Operations of `matrix3x3.h` -/

/-- The member `matrix3x3::operator*(matrix3x3 const& m)`. -/
def matrix3x3.mul {α : Type} [Add α] [Mul α] (a m : matrix3x3 α) : matrix3x3 α :=
  ⟨a.m00 * m.m00 + a.m01 * m.m10 + a.m02 * m.m20,
   a.m00 * m.m01 + a.m01 * m.m11 + a.m02 * m.m21,
   a.m00 * m.m02 + a.m01 * m.m12 + a.m02 * m.m22,
   a.m10 * m.m00 + a.m11 * m.m10 + a.m12 * m.m20,
   a.m10 * m.m01 + a.m11 * m.m11 + a.m12 * m.m21,
   a.m10 * m.m02 + a.m11 * m.m12 + a.m12 * m.m22,
   a.m20 * m.m00 + a.m21 * m.m10 + a.m22 * m.m20,
   a.m20 * m.m01 + a.m21 * m.m11 + a.m22 * m.m21,
   a.m20 * m.m02 + a.m21 * m.m12 + a.m22 * m.m22⟩

instance {α : Type} [Add α] [Mul α] : Mul (matrix3x3 α) := ⟨matrix3x3.mul⟩

/-- The free function `operator*(vector3 const& v, matrix3x3 const& m)`. -/
def vector3.mul_matrix {α : Type} [Add α] [Mul α] (v : vector3 α) (m : matrix3x3 α) :
    vector3 α :=
  ⟨v.x * m.m00 + v.y * m.m10 + v.z * m.m20,
   v.x * m.m01 + v.y * m.m11 + v.z * m.m21,
   v.x * m.m02 + v.y * m.m12 + v.z * m.m22⟩

instance {α : Type} [Add α] [Mul α] : HMul (vector3 α) (matrix3x3 α) (vector3 α) :=
  ⟨vector3.mul_matrix⟩

/-- The static function `matrix3x3::scale`. -/
def matrix3x3.scale {α : Type} [Zero α] (x y z : α) : matrix3x3 α :=
  ⟨x, 0, 0,
   0, y, 0,
   0, 0, z⟩

/-- The static function `matrix3x3::uniform_scale`. -/
def matrix3x3.uniform_scale {α : Type} [Zero α] (s : α) : matrix3x3 α :=
  ⟨s, 0, 0,
   0, s, 0,
   0, 0, s⟩

/-- Modelled from the spec: the constant `matrix3x3::IDENTITY` is declared in
the header and defined outside it; the spec's "Identity" is the matrix with
ones on the diagonal and zeros elsewhere. -/
def matrix3x3.IDENTITY {α : Type} [Zero α] [One α] : matrix3x3 α :=
  ⟨1, 0, 0,
   0, 1, 0,
   0, 0, 1⟩

/-- The static function `matrix3x3::rotation_around_x_axis`; `cos` and `sin`
stand for `std::cos` and `std::sin`. -/
def matrix3x3.rotation_around_x_axis {α : Type} [Zero α] [One α] [Neg α]
    (cos sin : α → α) (radians : α) : matrix3x3 α :=
  ⟨1, 0, 0,
   0, cos radians, sin radians,
   0, -sin radians, cos radians⟩

/-- The static function `matrix3x3::rotation_around_y_axis`. -/
def matrix3x3.rotation_around_y_axis {α : Type} [Zero α] [One α] [Neg α]
    (cos sin : α → α) (radians : α) : matrix3x3 α :=
  ⟨cos radians, 0, -sin radians,
   0, 1, 0,
   sin radians, 0, cos radians⟩

/-- The static function `matrix3x3::rotation_around_z_axis`. -/
def matrix3x3.rotation_around_z_axis {α : Type} [Zero α] [One α] [Neg α]
    (cos sin : α → α) (radians : α) : matrix3x3 α :=
  ⟨cos radians, sin radians, 0,
   -sin radians, cos radians, 0,
   0, 0, 1⟩

/-! ## `vector3.h` members used by the header and by the claims -/

/-- Modelled from the spec: `vector3::length` (header `vector3.h`), the
Euclidean length; `sqrt` stands for `std::sqrt`. -/
def vector3.length {α : Type} [Add α] [Mul α] (sqrt : α → α) (v : vector3 α) : α :=
  sqrt (v.x * v.x + v.y * v.y + v.z * v.z)

/-- Modelled from the spec: `vector3::normalized` (header `vector3.h`), the
vector scaled by the reciprocal of its length; the result for a zero-length
vector is left undefined by the spec. -/
def vector3.normalized {α : Type} [Add α] [Mul α] [One α] [Div α] (sqrt : α → α)
    (v : vector3 α) : vector3 α :=
  ⟨v.x * (1 / v.length sqrt), v.y * (1 / v.length sqrt), v.z * (1 / v.length sqrt)⟩

/-- Modelled from the spec: the dot product of `vector3.h`. -/
def vector3.dot {α : Type} [Add α] [Mul α] (a b : vector3 α) : α :=
  a.x * b.x + a.y * b.y + a.z * b.z

/-- Modelled from the spec: the cross product of `vector3.h`. -/
def vector3.cross {α : Type} [Sub α] [Mul α] (a b : vector3 α) : vector3 α :=
  ⟨a.y * b.z - a.z * b.y, a.z * b.x - a.x * b.z, a.x * b.y - a.y * b.x⟩

/-- Modelled from the spec: componentwise addition of `vector3.h`. -/
def vector3.add {α : Type} [Add α] (a b : vector3 α) : vector3 α :=
  ⟨a.x + b.x, a.y + b.y, a.z + b.z⟩

/-- Modelled from the spec: componentwise subtraction of `vector3.h`. -/
def vector3.sub {α : Type} [Sub α] (a b : vector3 α) : vector3 α :=
  ⟨a.x - b.x, a.y - b.y, a.z - b.z⟩

/-- Modelled from the spec: scaling by a scalar, of `vector3.h`. -/
def vector3.smul {α : Type} [Mul α] (a : vector3 α) (f : α) : vector3 α :=
  ⟨a.x * f, a.y * f, a.z * f⟩

/-- The zero vector `(0, 0, 0)`. -/
def vector3.ZERO {α : Type} [Zero α] : vector3 α := ⟨0, 0, 0⟩

/-- The static function `matrix3x3::rotation_around_axis`; `sqrt`, `cos`, `sin`
stand for `std::sqrt` (inside `normalized`), `std::cos`, `std::sin`. -/
def matrix3x3.rotation_around_axis {α : Type} [Add α] [Sub α] [Mul α] [One α] [Div α]
    (sqrt cos sin : α → α) (axis : vector3 α) (radians : α) : matrix3x3 α :=
  let axis_normalized := axis.normalized sqrt
  let cos_value := cos radians
  let sin_value := sin radians
  ⟨axis_normalized.x * axis_normalized.x * (1 - cos_value) + cos_value,
   axis_normalized.x * axis_normalized.y * (1 - cos_value) + axis_normalized.z * sin_value,
   axis_normalized.x * axis_normalized.z * (1 - cos_value) - axis_normalized.y * sin_value,
   axis_normalized.x * axis_normalized.y * (1 - cos_value) - axis_normalized.z * sin_value,
   axis_normalized.y * axis_normalized.y * (1 - cos_value) + cos_value,
   axis_normalized.y * axis_normalized.z * (1 - cos_value) + axis_normalized.x * sin_value,
   axis_normalized.x * axis_normalized.z * (1 - cos_value) + axis_normalized.y * sin_value,
   axis_normalized.y * axis_normalized.z * (1 - cos_value) - axis_normalized.x * sin_value,
   axis_normalized.z * axis_normalized.z * (1 - cos_value) + cos_value⟩

/-! ## 4x4 forms used by the example application -/

/-- Modelled from the spec: the 4-component vector of `vector4.h` (members
`x`, `y`, `z`, `w`). -/
@[ext]
structure vector4 (α : Type) where
  x : α
  y : α
  z : α
  w : α
deriving DecidableEq

/-- Modelled from the spec: the class `matrix4x4` of `matrix4x4.h`, a row-major
4x4 grid; field `mij` is `values[i][j]`, in the order of the sixteen-argument
constructor that `update_shader_mvp` calls. -/
@[ext]
structure matrix4x4 (α : Type) where
  m00 : α
  m01 : α
  m02 : α
  m03 : α
  m10 : α
  m11 : α
  m12 : α
  m13 : α
  m20 : α
  m21 : α
  m22 : α
  m23 : α
  m30 : α
  m31 : α
  m32 : α
  m33 : α
deriving DecidableEq

/-- Modelled from the spec: `matrix4x4::operator*` of `matrix4x4.h`, the
row-by-column product written as `matrix3x3::operator*` is, one size up. -/
def matrix4x4.mul {α : Type} [Add α] [Mul α] (a m : matrix4x4 α) : matrix4x4 α :=
  ⟨a.m00 * m.m00 + a.m01 * m.m10 + a.m02 * m.m20 + a.m03 * m.m30,
   a.m00 * m.m01 + a.m01 * m.m11 + a.m02 * m.m21 + a.m03 * m.m31,
   a.m00 * m.m02 + a.m01 * m.m12 + a.m02 * m.m22 + a.m03 * m.m32,
   a.m00 * m.m03 + a.m01 * m.m13 + a.m02 * m.m23 + a.m03 * m.m33,
   a.m10 * m.m00 + a.m11 * m.m10 + a.m12 * m.m20 + a.m13 * m.m30,
   a.m10 * m.m01 + a.m11 * m.m11 + a.m12 * m.m21 + a.m13 * m.m31,
   a.m10 * m.m02 + a.m11 * m.m12 + a.m12 * m.m22 + a.m13 * m.m32,
   a.m10 * m.m03 + a.m11 * m.m13 + a.m12 * m.m23 + a.m13 * m.m33,
   a.m20 * m.m00 + a.m21 * m.m10 + a.m22 * m.m20 + a.m23 * m.m30,
   a.m20 * m.m01 + a.m21 * m.m11 + a.m22 * m.m21 + a.m23 * m.m31,
   a.m20 * m.m02 + a.m21 * m.m12 + a.m22 * m.m22 + a.m23 * m.m32,
   a.m20 * m.m03 + a.m21 * m.m13 + a.m22 * m.m23 + a.m23 * m.m33,
   a.m30 * m.m00 + a.m31 * m.m10 + a.m32 * m.m20 + a.m33 * m.m30,
   a.m30 * m.m01 + a.m31 * m.m11 + a.m32 * m.m21 + a.m33 * m.m31,
   a.m30 * m.m02 + a.m31 * m.m12 + a.m32 * m.m22 + a.m33 * m.m32,
   a.m30 * m.m03 + a.m31 * m.m13 + a.m32 * m.m23 + a.m33 * m.m33⟩

instance {α : Type} [Add α] [Mul α] : Mul (matrix4x4 α) := ⟨matrix4x4.mul⟩

/-- Modelled from the spec: `operator*(vector4, matrix4x4)` of `matrix4x4.h`,
the row-vector transform `result[j] = Σ_i v[i] * M[i][j]`. -/
def vector4.mul_matrix {α : Type} [Add α] [Mul α] (v : vector4 α) (m : matrix4x4 α) :
    vector4 α :=
  ⟨v.x * m.m00 + v.y * m.m10 + v.z * m.m20 + v.w * m.m30,
   v.x * m.m01 + v.y * m.m11 + v.z * m.m21 + v.w * m.m31,
   v.x * m.m02 + v.y * m.m12 + v.z * m.m22 + v.w * m.m32,
   v.x * m.m03 + v.y * m.m13 + v.z * m.m23 + v.w * m.m33⟩

instance {α : Type} [Add α] [Mul α] : HMul (vector4 α) (matrix4x4 α) (vector4 α) :=
  ⟨vector4.mul_matrix⟩

/-- Modelled from the spec: the state of `camera` (`camera.h`) that its getters
`get_position`, `get_forward`, `get_up`, `get_right`, `get_horizontal_fov`,
`get_vertical_fov`, `get_near_plane_z`, `get_far_plane_z` return. -/
structure camera (α : Type) where
  position : vector3 α
  forward : vector3 α
  up : vector3 α
  right : vector3 α
  horizontal_fov : α
  vertical_fov : α
  near_plane_z : α
  far_plane_z : α
deriving DecidableEq

/-! ## `rasterized_color_triangle_app::update_shader_mvp` (`main.cpp`) -/

namespace rasterized_color_triangle_app

/-- The local `camera_rotation` of `update_shader_mvp`. -/
def camera_rotation {α : Type} [Zero α] [One α] (m_camera : camera α) : matrix4x4 α :=
  ⟨m_camera.right.x, m_camera.up.x, m_camera.forward.x, 0,
   m_camera.right.y, m_camera.up.y, m_camera.forward.y, 0,
   m_camera.right.z, m_camera.up.z, m_camera.forward.z, 0,
   0, 0, 0, 1⟩

/-- The local `camera_translation` of `update_shader_mvp`. -/
def camera_translation {α : Type} [Zero α] [One α] [Neg α] (m_camera : camera α) :
    matrix4x4 α :=
  ⟨1, 0, 0, 0,
   0, 1, 0, 0,
   0, 0, 1, 0,
   -m_camera.position.x, -m_camera.position.y, -m_camera.position.z, 1⟩

/-- The local `world_to_camera_transform` of `update_shader_mvp`. -/
def world_to_camera_transform {α : Type} [Zero α] [One α] [Neg α] [Add α] [Mul α]
    (m_camera : camera α) : matrix4x4 α :=
  camera_translation m_camera * camera_rotation m_camera

end rasterized_color_triangle_app

/-! ## The example application (`main.cpp`) -/

/-- The enum `shader_option`. -/
inductive shader_option where
  | color
  | texture
deriving DecidableEq

/-- The member `sym` of `SDL_Keysym`, the only one that `on_key_down` reads. -/
structure SDL_Keysym where
  sym : Int
deriving DecidableEq

/-- The SDL keycode `SDLK_a`, the character code of `a`. -/
def SDLK_a : Int := 97

/-- The SDL keycode `SDLK_d`. -/
def SDLK_d : Int := 100

/-- The SDL keycode `SDLK_w`. -/
def SDLK_w : Int := 119

/-- The SDL keycode `SDLK_s`. -/
def SDLK_s : Int := 115

/-- The SDL keycode `SDLK_r`. -/
def SDLK_r : Int := 114

/-- The SDL keycode `SDLK_f`. -/
def SDLK_f : Int := 102

/-- The SDL keycode `SDLK_q`. -/
def SDLK_q : Int := 113

/-- The SDL keycode `SDLK_e`. -/
def SDLK_e : Int := 101

/-- The SDL keycode `SDLK_1`. -/
def SDLK_1 : Int := 49

/-- The SDL keycode `SDLK_2`. -/
def SDLK_2 : Int := 50

/-- Modelled from the spec: what a shader (`color_shader.h`, `texture_shader.h`)
keeps of "set transform", the matrix last given to `set_mvp_matrix`. -/
structure shader (α : Type) where
  mvp_matrix : matrix4x4 α
deriving DecidableEq

/-- Modelled from the spec: `set_mvp_matrix` stores the matrix in the shader. -/
def shader.set_mvp_matrix {α : Type} (_s : shader α) (m : matrix4x4 α) : shader α :=
  ⟨m⟩

/-- The members of `camera.h`, `matrix4x4.h`, `color_shader.h` and
`texture_shader.h` that `main.cpp` calls and whose bodies are not among the
sources, taken as parameters: the camera constructor and mutators, the named
`matrix4x4` constructors, the default-constructed shaders; `pi` stands for
`M_PI`. -/
structure collaborators (α : Type) where
  pi : α
  camera_new : vector3 α → vector3 α → vector3 α → α → α → α → α → camera α
  move_left : camera α → α → camera α
  move_right : camera α → α → camera α
  move_forward : camera α → α → camera α
  move_backward : camera α → α → camera α
  move_up : camera α → α → camera α
  move_down : camera α → α → camera α
  yaw : camera α → α → camera α
  rotation_around_x_axis : α → matrix4x4 α
  rotation_around_y_axis : α → matrix4x4 α
  rotation_around_z_axis : α → matrix4x4 α
  translation : α → α → α → matrix4x4 α
  clip_space : α → α → α → α → matrix4x4 α
  color_shader_new : shader α
  texture_shader_new : shader α

/-- The members of the class `rasterized_color_triangle_app` that
`update_shader_mvp` and `on_key_down` read or write. -/
structure rasterized_color_triangle_app (α : Type) where
  m_triangle_position : vector3 α
  m_triangle_rotation : vector3 α
  m_camera : camera α
  m_color_shader : shader α
  m_texture_shader : shader α
  m_shader_option : shader_option
deriving DecidableEq

namespace rasterized_color_triangle_app

/-- The local `local_to_world_transform` of `update_shader_mvp`. -/
def local_to_world_transform {α : Type} [Add α] [Mul α] (ext : collaborators α)
    (app : rasterized_color_triangle_app α) : matrix4x4 α :=
  ext.rotation_around_x_axis app.m_triangle_rotation.x *
  ext.rotation_around_y_axis app.m_triangle_rotation.y *
  ext.rotation_around_z_axis app.m_triangle_rotation.z *
  ext.translation app.m_triangle_position.x app.m_triangle_position.y
    app.m_triangle_position.z

/-- The local `camera_to_clip_transform` of `update_shader_mvp`. -/
def camera_to_clip_transform {α : Type} (ext : collaborators α) (m_camera : camera α) :
    matrix4x4 α :=
  ext.clip_space m_camera.horizontal_fov m_camera.vertical_fov m_camera.near_plane_z
    m_camera.far_plane_z

/-- The local `local_to_clip_transform` of `update_shader_mvp`. -/
def local_to_clip_transform {α : Type} [Zero α] [One α] [Neg α] [Add α] [Mul α]
    (ext : collaborators α) (app : rasterized_color_triangle_app α) : matrix4x4 α :=
  local_to_world_transform ext app * world_to_camera_transform app.m_camera *
    camera_to_clip_transform ext app.m_camera

/-- The method `update_shader_mvp`: the local-to-clip matrix goes to the shader
that `m_shader_option` names. -/
def update_shader_mvp {α : Type} [Zero α] [One α] [Neg α] [Add α] [Mul α]
    (ext : collaborators α) (app : rasterized_color_triangle_app α) :
    rasterized_color_triangle_app α :=
  if app.m_shader_option = shader_option.color then
    ⟨app.m_triangle_position, app.m_triangle_rotation, app.m_camera,
     app.m_color_shader.set_mvp_matrix (local_to_clip_transform ext app),
     app.m_texture_shader, app.m_shader_option⟩
  else
    ⟨app.m_triangle_position, app.m_triangle_rotation, app.m_camera,
     app.m_color_shader,
     app.m_texture_shader.set_mvp_matrix (local_to_clip_transform ext app),
     app.m_shader_option⟩

/-- The assignment to `m_camera` in the branches of `on_key_down`. -/
def with_camera {α : Type} (app : rasterized_color_triangle_app α) (c : camera α) :
    rasterized_color_triangle_app α :=
  ⟨app.m_triangle_position, app.m_triangle_rotation, c, app.m_color_shader,
   app.m_texture_shader, app.m_shader_option⟩

/-- The assignment to `m_shader_option` in the branches of `on_key_down`. -/
def with_shader_option {α : Type} (app : rasterized_color_triangle_app α)
    (o : shader_option) : rasterized_color_triangle_app α :=
  ⟨app.m_triangle_position, app.m_triangle_rotation, app.m_camera, app.m_color_shader,
   app.m_texture_shader, o⟩

/-- The method `on_key_down`; the call of the base class handler acts on no
member kept here. -/
def on_key_down {α : Type} [Field α] (ext : collaborators α)
    (app : rasterized_color_triangle_app α) (key : SDL_Keysym) :
    rasterized_color_triangle_app α :=
  let moving_speed : α := 0.01
  let rotation_speed : α := 0.05
  update_shader_mvp ext
    (if key.sym = SDLK_a then app.with_camera (ext.move_left app.m_camera moving_speed)
     else if key.sym = SDLK_d then app.with_camera (ext.move_right app.m_camera moving_speed)
     else if key.sym = SDLK_w then app.with_camera (ext.move_forward app.m_camera moving_speed)
     else if key.sym = SDLK_s then app.with_camera (ext.move_backward app.m_camera moving_speed)
     else if key.sym = SDLK_r then app.with_camera (ext.move_up app.m_camera moving_speed)
     else if key.sym = SDLK_f then app.with_camera (ext.move_down app.m_camera moving_speed)
     else if key.sym = SDLK_q then app.with_camera (ext.yaw app.m_camera (-rotation_speed))
     else if key.sym = SDLK_e then app.with_camera (ext.yaw app.m_camera rotation_speed)
     else if key.sym = SDLK_1 then app.with_shader_option shader_option.color
     else if key.sym = SDLK_2 then app.with_shader_option shader_option.texture
     else app)

/-- The constructor `rasterized_color_triangle_app(width, height)`: the member
initialisers, then the first `update_shader_mvp`. -/
def construct {α : Type} [Field α] (ext : collaborators α) (width height : Nat) :
    rasterized_color_triangle_app α :=
  update_shader_mvp ext
    ⟨⟨0, 0, 1.5⟩, ⟨0, 0, 0⟩,
     ext.camera_new ⟨0, 0, 0⟩ ⟨0, 0, 1⟩ ⟨0, 1, 0⟩ (ext.pi / 2)
       ((height : α) / (width : α)) 0.01 20,
     ext.color_shader_new, ext.texture_shader_new, shader_option.color⟩

/-- The matrix held by the shader that the option `o` names. -/
def mvp_of {α : Type} (app : rasterized_color_triangle_app α) (o : shader_option) :
    matrix4x4 α :=
  match o with
  | shader_option.color => app.m_color_shader.mvp_matrix
  | shader_option.texture => app.m_texture_shader.mvp_matrix

end rasterized_color_triangle_app

/-- The shader option that is not `o`. -/
def shader_option.other (o : shader_option) : shader_option :=
  match o with
  | shader_option.color => shader_option.texture
  | shader_option.texture => shader_option.color

/-! ## Attribute interpolation (spec §4.4) -/

/-- The enum `attribute_interpolation_option`, with the two values that the
constructor in `main.cpp` binds attributes with. -/
inductive attribute_interpolation_option where
  | linear
  | perspective_correct
deriving DecidableEq

/-- Modelled from the spec: `linear` mode of the interpolation stage (not among
the sources), `w0*a0 + w1*a1 + w2*a2`. -/
def interpolate_linear {α V : Type} [Add V] [SMul α V] (w0 w1 w2 : α) (a0 a1 a2 : V) : V :=
  w0 • a0 + w1 • a1 + w2 • a2

/-- Modelled from the spec: the renormalized weight
`w_i' = (w_i / clipW_i) / Σ_j (w_j / clipW_j)` of `perspective_correct` mode.
The quotient has no value when a clip `w` or the sum it is divided by is zero. -/
def perspective_weight {α : Type} [Zero α] [DecidableEq α] [Add α] [Div α]
    (wi clipWi w0 w1 w2 clipW0 clipW1 clipW2 : α) : Option α :=
  if clipWi = 0 ∨ clipW0 = 0 ∨ clipW1 = 0 ∨ clipW2 = 0
      ∨ w0 / clipW0 + w1 / clipW1 + w2 / clipW2 = 0 then
    none
  else
    some ((wi / clipWi) / (w0 / clipW0 + w1 / clipW1 + w2 / clipW2))

/-- Modelled from the spec: `perspective_correct` mode of the interpolation
stage, the attribute interpolated with the renormalized weights, where these
have a value. -/
def interpolate_perspective_correct {α V : Type} [Zero α] [DecidableEq α] [Add α] [Div α]
    [Add V] [SMul α V] (w0 w1 w2 clipW0 clipW1 clipW2 : α) (a0 a1 a2 : V) : Option V :=
  match perspective_weight w0 clipW0 w0 w1 w2 clipW0 clipW1 clipW2,
      perspective_weight w1 clipW1 w0 w1 w2 clipW0 clipW1 clipW2,
      perspective_weight w2 clipW2 w0 w1 w2 clipW0 clipW1 clipW2 with
  | some u0, some u1, some u2 => some (interpolate_linear u0 u1 u2 a0 a1 a2)
  | _, _, _ => none

/-- Modelled from the spec: the interpolated value of an attribute under the
mode it was bound with. -/
def interpolate_attribute {α V : Type} [Zero α] [DecidableEq α] [Add α] [Div α]
    [Add V] [SMul α V] (mode : attribute_interpolation_option)
    (w0 w1 w2 clipW0 clipW1 clipW2 : α) (a0 a1 a2 : V) : Option V :=
  match mode with
  | attribute_interpolation_option.linear => some (interpolate_linear w0 w1 w2 a0 a1 a2)
  | attribute_interpolation_option.perspective_correct =>
    interpolate_perspective_correct w0 w1 w2 clipW0 clipW1 clipW2 a0 a1 a2

/-! ## A model of `float` as IEEE 754 binary32 -/

/-- The count of binary digits of `n`, by halving at most `fuel` times. -/
def bit_length_aux : Nat → Nat → Nat
  | 0, _ => 0
  | fuel + 1, n => if n = 0 then 0 else bit_length_aux fuel (n / 2) + 1

/-- The count of binary digits of `n`: `n < 2 ^ bit_length n`. -/
def bit_length (n : Nat) : Nat := bit_length_aux n n

/-- Rounding to nearest, ties to even, of the quotient `a / b` (for `b > 0`) to
a natural number with at most 24 significant binary digits. -/
def round_to_24_bits (a b : Nat) : Nat :=
  let s := bit_length (a / b) - 24
  let d := b * 2 ^ s
  let q := a / d
  let r := a % d
  (if 2 * r < d ∨ (2 * r = d ∧ q % 2 = 0) then q else q + 1) * 2 ^ s

/-- A binary32 value. Every finite binary32 is a multiple of the least
subnormal `2^-149`, and `finite n` is the number `n * 2^-149`; the infinities
and NaN are `non_finite`. The sign of zero is not kept. -/
inductive binary32 where
  | finite (n : Int)
  | non_finite
deriving DecidableEq

namespace binary32

/-- The binary32 nearest to `± a / b` in units of `2^-149`, or `non_finite`
beyond the largest finite value `(2^24 - 1) * 2^104`. -/
def of_quotient (negative : Bool) (a b : Nat) : binary32 :=
  if round_to_24_bits a b < 2 ^ 277 then
    finite (if negative then -(round_to_24_bits a b : Int) else (round_to_24_bits a b : Int))
  else
    non_finite

/-- Correctly rounded addition. -/
def add : binary32 → binary32 → binary32
  | finite x, finite y => of_quotient (decide (x + y < 0)) (x + y).natAbs 1
  | _, _ => non_finite

/-- Correctly rounded subtraction. -/
def sub : binary32 → binary32 → binary32
  | finite x, finite y => of_quotient (decide (x - y < 0)) (x - y).natAbs 1
  | _, _ => non_finite

/-- Correctly rounded multiplication. -/
def mul : binary32 → binary32 → binary32
  | finite x, finite y => of_quotient (decide (x * y < 0)) (x * y).natAbs (2 ^ 149)
  | _, _ => non_finite

/-- Correctly rounded division; a zero divisor gives a non-finite result. -/
def div : binary32 → binary32 → binary32
  | finite x, finite y =>
    if y = 0 then non_finite
    else of_quotient (decide (x < 0) != decide (y < 0)) (x.natAbs * 2 ^ 149) y.natAbs
  | _, _ => non_finite

/-- Negation. -/
def neg : binary32 → binary32
  | finite x => finite (-x)
  | non_finite => non_finite

instance : Zero binary32 := ⟨finite 0⟩

instance : One binary32 := ⟨finite (2 ^ 149)⟩

instance : Add binary32 := ⟨add⟩

instance : Sub binary32 := ⟨sub⟩

instance : Mul binary32 := ⟨mul⟩

instance : Div binary32 := ⟨div⟩

instance : Neg binary32 := ⟨neg⟩

/-- The binary32 nearest to `π / 2`, bit pattern `0x3FC90FDB`, the number
`13176795 * 2^-23 = 1.57079637`; it is `static_cast<float>(M_PI) / 2.0f`. -/
def half_pi : binary32 := finite (13176795 * 2 ^ 126)

/-- The value of `std::sqrt` at `1.0f`, which is `1.0f`; no value is given at
other arguments. -/
def sqrt_at_one (x : binary32) : binary32 :=
  if x = 1 then 1 else non_finite

/-- The value of `std::cos` at `half_pi`, bit pattern `0xB33BBD2E`, the number
`-12303662 * 2^-48 = -4.37113883e-08`; no value is given at other arguments. -/
def cos_at_half_pi (x : binary32) : binary32 :=
  if x = half_pi then finite (-12303662 * 2 ^ 101) else non_finite

/-- The value of `std::sin` at `half_pi`, which is `1.0f`; no value is given at
other arguments. -/
def sin_at_half_pi (x : binary32) : binary32 :=
  if x = half_pi then 1 else non_finite

end binary32

/-! ## Properties the claims speak of -/

/-- Each row has dot product 1 with itself and 0 with each other row. -/
def matrix3x3.rows_orthonormal {α : Type} [Add α] [Mul α] [Zero α] [One α]
    (m : matrix3x3 α) : Prop :=
  ∀ i j : Fin 3, (m.row i).dot (m.row j) = if i = j then 1 else 0

instance {α : Type} [Add α] [Mul α] [Zero α] [One α] [DecidableEq α] (m : matrix3x3 α) :
    Decidable m.rows_orthonormal :=
  by unfold matrix3x3.rows_orthonormal; infer_instance

/-- Rodrigues' rotation formula in the claim's words, for a unit axis `k`, the
cosine `c` and sine `s` of the angle, and the vector `v`:
`v·c + (k × v)·s + k·(k · v)·(1 − c)`. -/
def rodrigues_formula {α : Type} [Add α] [Sub α] [Mul α] [One α]
    (k : vector3 α) (c s : α) (v : vector3 α) : vector3 α :=
  ((v.smul c).add ((k.cross v).smul s)).add (k.smul (k.dot v * (1 - c)))

/-- The axis divided by its Euclidean length, `a / |a|`. -/
def unit_axis {α : Type} [Add α] [Mul α] [Div α] (sqrt : α → α) (a : vector3 α) :
    vector3 α :=
  ⟨a.x / sqrt (a.x * a.x + a.y * a.y + a.z * a.z),
   a.y / sqrt (a.x * a.x + a.y * a.y + a.z * a.z),
   a.z / sqrt (a.x * a.x + a.y * a.y + a.z * a.z)⟩

/-- The determinant of a 3x3 matrix, expanded along its first row. -/
def matrix3x3.determinant {α : Type} [Add α] [Sub α] [Mul α] (m : matrix3x3 α) : α :=
  m.m00 * (m.m11 * m.m22 - m.m12 * m.m21)
    - m.m01 * (m.m10 * m.m22 - m.m12 * m.m20)
    + m.m02 * (m.m10 * m.m21 - m.m11 * m.m20)

/-! ## Unfolding lemmas -/

theorem matrix3x3.mul3_def {α : Type} [Add α] [Mul α] (a m : matrix3x3 α) :
    a * m = matrix3x3.mul a m := rfl

theorem vector3.mul_matrix3_def {α : Type} [Add α] [Mul α] (v : vector3 α) (m : matrix3x3 α) :
    v * m = vector3.mul_matrix v m := rfl

theorem matrix4x4.mul4_def {α : Type} [Add α] [Mul α] (a m : matrix4x4 α) :
    a * m = matrix4x4.mul a m := rfl

theorem vector4.mul_matrix4_def {α : Type} [Add α] [Mul α] (v : vector4 α) (m : matrix4x4 α) :
    v * m = vector4.mul_matrix v m := rfl

/-- The row-vector transform distributes over the matrix product with the
left factor applied first. -/
theorem vector3.mul_matrix_mul {α : Type} [CommRing α] (v : vector3 α) (a b : matrix3x3 α) :
    v * (a * b) = (v * a) * b := by
  simp only [matrix3x3.mul3_def, vector3.mul_matrix3_def, matrix3x3.mul, vector3.mul_matrix]
  ext <;> simp only [] <;> ring

/-! ## Auxiliary facts for the rotation constructors -/

/-- A non-zero real vector has a positive squared length. -/
theorem vector3.length_sq_pos (a : vector3 ℝ) (h : a ≠ vector3.ZERO) :
    0 < a.x * a.x + a.y * a.y + a.z * a.z := by
  by_contra hn
  have hx := mul_self_nonneg a.x
  have hy := mul_self_nonneg a.y
  have hz := mul_self_nonneg a.z
  have hx0 : a.x = 0 := mul_self_eq_zero.mp (by linarith)
  have hy0 : a.y = 0 := mul_self_eq_zero.mp (by linarith)
  have hz0 : a.z = 0 := mul_self_eq_zero.mp (by linarith)
  exact h (vector3.ext hx0 hy0 hz0)

/-- The Euclidean length of a non-zero real vector is positive. -/
theorem vector3.length_pos (a : vector3 ℝ) (h : a ≠ vector3.ZERO) :
    0 < a.length Real.sqrt :=
  Real.sqrt_pos.mpr (a.length_sq_pos h)

/-- Normalizing a non-zero real vector gives a vector of unit length. -/
theorem vector3.normalized_unit (a : vector3 ℝ) (h : a ≠ vector3.ZERO) :
    (a.normalized Real.sqrt).x * (a.normalized Real.sqrt).x
      + (a.normalized Real.sqrt).y * (a.normalized Real.sqrt).y
      + (a.normalized Real.sqrt).z * (a.normalized Real.sqrt).z = 1 := by
  have hpos := a.length_pos h
  have hsq : a.length Real.sqrt * a.length Real.sqrt = a.x * a.x + a.y * a.y + a.z * a.z :=
    Real.mul_self_sqrt (a.length_sq_pos h).le
  have hne : a.length Real.sqrt ≠ 0 := hpos.ne.symm
  simp only [vector3.normalized]
  field_simp
  linear_combination -hsq

/-- The rows of the axis-angle matrix are orthonormal as soon as the axis
`(kx, ky, kz)` has unit length and `c`, `s` satisfy `c² + s² = 1`. -/
theorem axis_angle_rows_orthonormal (kx ky kz c s : ℝ)
    (hk : kx * kx + ky * ky + kz * kz = 1) (hcs : c * c + s * s = 1) :
    matrix3x3.rows_orthonormal
      (⟨kx * kx * (1 - c) + c, kx * ky * (1 - c) + kz * s, kx * kz * (1 - c) - ky * s,
        kx * ky * (1 - c) - kz * s, ky * ky * (1 - c) + c, ky * kz * (1 - c) + kx * s,
        kx * kz * (1 - c) + ky * s, ky * kz * (1 - c) - kx * s, kz * kz * (1 - c) + c⟩ :
        matrix3x3 ℝ) := by
  intro i j
  fin_cases i <;> fin_cases j <;>
    simp [matrix3x3.row, matrix3x3.values, vector3.dot]
  · linear_combination (kx * kx * (1 - c) ^ 2 + s ^ 2) * hk + (1 - kx * kx) * hcs
  · linear_combination (kx * ky * (1 - c) ^ 2) * hk - kx * ky * hcs
  · linear_combination (kx * kz * (1 - c) ^ 2) * hk - kx * kz * hcs
  · linear_combination (kx * ky * (1 - c) ^ 2) * hk - kx * ky * hcs
  · linear_combination (ky * ky * (1 - c) ^ 2 + s ^ 2) * hk + (1 - ky * ky) * hcs
  · linear_combination (ky * kz * (1 - c) ^ 2) * hk - ky * kz * hcs
  · linear_combination (kx * kz * (1 - c) ^ 2) * hk - kx * kz * hcs
  · linear_combination (ky * kz * (1 - c) ^ 2) * hk - ky * kz * hcs
  · linear_combination (kz * kz * (1 - c) ^ 2 + s ^ 2) * hk + (1 - kz * kz) * hcs

/-- The rows of the three named axis rotations are orthonormal as soon as
`c² + s² = 1`. -/
theorem named_axis_rows_orthonormal (c s : ℝ) (hcs : c * c + s * s = 1) :
    matrix3x3.rows_orthonormal (⟨1, 0, 0, 0, c, s, 0, -s, c⟩ : matrix3x3 ℝ)
    ∧ matrix3x3.rows_orthonormal (⟨c, 0, -s, 0, 1, 0, s, 0, c⟩ : matrix3x3 ℝ)
    ∧ matrix3x3.rows_orthonormal (⟨c, s, 0, -s, c, 0, 0, 0, 1⟩ : matrix3x3 ℝ) := by
  refine ⟨?_, ?_, ?_⟩ <;> intro i j <;> fin_cases i <;> fin_cases j <;>
    simp [matrix3x3.row, matrix3x3.values, vector3.dot] <;> linarith

theorem cos_mul_self_add_sin_mul_self (θ : ℝ) :
    Real.cos θ * Real.cos θ + Real.sin θ * Real.sin θ = 1 := by
  have h := Real.cos_sq_add_sin_sq θ
  linear_combination h

/-- Transforming by the axis-angle matrix for `(c, s)` and then by the one for
`(c, -s)` gives the vector back, for a unit axis and `c² + s² = 1`. -/
theorem axis_angle_there_and_back (kx ky kz c s : ℝ) (v : vector3 ℝ)
    (hk : kx * kx + ky * ky + kz * kz = 1) (hcs : c * c + s * s = 1) :
    (v * (⟨kx * kx * (1 - c) + c, kx * ky * (1 - c) + kz * s, kx * kz * (1 - c) - ky * s,
        kx * ky * (1 - c) - kz * s, ky * ky * (1 - c) + c, ky * kz * (1 - c) + kx * s,
        kx * kz * (1 - c) + ky * s, ky * kz * (1 - c) - kx * s, kz * kz * (1 - c) + c⟩ :
        matrix3x3 ℝ))
      * (⟨kx * kx * (1 - c) + c, kx * ky * (1 - c) + kz * -s, kx * kz * (1 - c) - ky * -s,
        kx * ky * (1 - c) - kz * -s, ky * ky * (1 - c) + c, ky * kz * (1 - c) + kx * -s,
        kx * kz * (1 - c) + ky * -s, ky * kz * (1 - c) - kx * -s, kz * kz * (1 - c) + c⟩ :
        matrix3x3 ℝ) = v := by
  simp only [vector3.mul_matrix3_def, vector3.mul_matrix]
  ext <;> simp only []
  · linear_combination ((kx * v.x + ky * v.y + kz * v.z) * kx * (1 - c) ^ 2 + v.x * s ^ 2) * hk
      + (v.x - (kx * v.x + ky * v.y + kz * v.z) * kx) * hcs
  · linear_combination ((kx * v.x + ky * v.y + kz * v.z) * ky * (1 - c) ^ 2 + v.y * s ^ 2) * hk
      + (v.y - (kx * v.x + ky * v.y + kz * v.z) * ky) * hcs
  · linear_combination ((kx * v.x + ky * v.y + kz * v.z) * kz * (1 - c) ^ 2 + v.z * s ^ 2) * hk
      + (v.z - (kx * v.x + ky * v.y + kz * v.z) * kz) * hcs

/-- Transforming by a named axis rotation for `(c, s)` and then by the one for
`(c, -s)` gives the vector back, when `c² + s² = 1`. -/
theorem named_axis_there_and_back (c s : ℝ) (v : vector3 ℝ) (hcs : c * c + s * s = 1) :
    (v * (⟨1, 0, 0, 0, c, s, 0, -s, c⟩ : matrix3x3 ℝ))
        * (⟨1, 0, 0, 0, c, -s, 0, - -s, c⟩ : matrix3x3 ℝ) = v
    ∧ (v * (⟨c, 0, -s, 0, 1, 0, s, 0, c⟩ : matrix3x3 ℝ))
        * (⟨c, 0, - -s, 0, 1, 0, -s, 0, c⟩ : matrix3x3 ℝ) = v
    ∧ (v * (⟨c, s, 0, -s, c, 0, 0, 0, 1⟩ : matrix3x3 ℝ))
        * (⟨c, -s, 0, - -s, c, 0, 0, 0, 1⟩ : matrix3x3 ℝ) = v := by
  refine ⟨?_, ?_, ?_⟩
  · simp only [vector3.mul_matrix3_def, vector3.mul_matrix]
    ext <;> simp only []
    · ring
    · linear_combination v.y * hcs
    · linear_combination v.z * hcs
  · simp only [vector3.mul_matrix3_def, vector3.mul_matrix]
    ext <;> simp only []
    · linear_combination v.x * hcs
    · ring
    · linear_combination v.z * hcs
  · simp only [vector3.mul_matrix3_def, vector3.mul_matrix]
    ext <;> simp only []
    · linear_combination v.x * hcs
    · linear_combination v.y * hcs
    · ring

/-- The identity matrix leaves every vector unchanged. -/
theorem vector3.mul_identity {α : Type} [CommRing α] (v : vector3 α) :
    v * (matrix3x3.IDENTITY : matrix3x3 α) = v := by
  simp only [vector3.mul_matrix3_def, vector3.mul_matrix, matrix3x3.IDENTITY]
  ext <;> simp only [] <;> ring

/-- All four constructors give the identity matrix at the angle `2π`. -/
theorem rotation_two_pi_eq_identity (axis : vector3 ℝ) :
    matrix3x3.rotation_around_x_axis Real.cos Real.sin (2 * Real.pi) = matrix3x3.IDENTITY
    ∧ matrix3x3.rotation_around_y_axis Real.cos Real.sin (2 * Real.pi) = matrix3x3.IDENTITY
    ∧ matrix3x3.rotation_around_z_axis Real.cos Real.sin (2 * Real.pi) = matrix3x3.IDENTITY
    ∧ matrix3x3.rotation_around_axis Real.sqrt Real.cos Real.sin axis (2 * Real.pi)
        = matrix3x3.IDENTITY := by
  refine ⟨?_, ?_, ?_, ?_⟩ <;>
    simp [matrix3x3.rotation_around_x_axis, matrix3x3.rotation_around_y_axis,
      matrix3x3.rotation_around_z_axis, matrix3x3.rotation_around_axis, matrix3x3.IDENTITY]

/-! ## Claims -/

/-- C1: the vector-matrix `operator*` follows the row-vector convention: for
each column `j`, component `j` of `v * M` is
`v.x * M[0][j] + v.y * M[1][j] + v.z * M[2][j]`. -/
theorem vector_matrix_row_vector_convention {α : Type} [Add α] [Mul α]
    (v : vector3 α) (M : matrix3x3 α) (j : Fin 3) :
    (v * M).component j
      = v.x * M.values 0 j + v.y * M.values 1 j + v.z * M.values 2 j := by
  fin_cases j <;> rfl

/-- C2: `matrix3x3::operator*` is associative, `(A * B) * C = A * (B * C)`, in
exact arithmetic (any commutative ring of scalars). -/
theorem matrix3x3_mul_assoc {α : Type} [CommRing α] (A B C : matrix3x3 α) :
    (A * B) * C = A * (B * C) := by
  simp only [matrix3x3.mul3_def, matrix3x3.mul]
  ext <;> simp only [] <;> ring

/-- C3: `IDENTITY` is a two-sided unit of `matrix3x3::operator*`:
`M * IDENTITY = M` and `IDENTITY * M = M`. -/
theorem matrix3x3_identity_two_sided_unit {α : Type} [CommRing α] (M : matrix3x3 α) :
    M * matrix3x3.IDENTITY = M ∧ matrix3x3.IDENTITY * M = M := by
  constructor <;>
    (simp only [matrix3x3.mul3_def, matrix3x3.mul, matrix3x3.IDENTITY]
     ext <;> simp only [] <;> ring)

/-- C4: every rotation matrix built by `rotation_around_x_axis`,
`rotation_around_y_axis`, `rotation_around_z_axis` (any angle) and by
`rotation_around_axis` (any angle, any non-zero axis) is orthonormal: each row
has dot product 1 with itself and 0 with each other row. -/
theorem rotation_matrices_orthonormal (θ : ℝ) (axis : vector3 ℝ)
    (h : axis ≠ vector3.ZERO) :
    (matrix3x3.rotation_around_x_axis Real.cos Real.sin θ).rows_orthonormal
    ∧ (matrix3x3.rotation_around_y_axis Real.cos Real.sin θ).rows_orthonormal
    ∧ (matrix3x3.rotation_around_z_axis Real.cos Real.sin θ).rows_orthonormal
    ∧ (matrix3x3.rotation_around_axis Real.sqrt Real.cos Real.sin axis θ).rows_orthonormal := by
  have hcs := cos_mul_self_add_sin_mul_self θ
  obtain ⟨hx, hy, hz⟩ := named_axis_rows_orthonormal _ _ hcs
  exact ⟨hx, hy, hz, axis_angle_rows_orthonormal _ _ _ _ _ (axis.normalized_unit h) hcs⟩

/-- C5: rotating by `θ` and then by `-θ` about the same axis returns the
original vector, `(v * R θ) * R (-θ) = v`, for `R` any of the three named axis
rotations or `rotation_around_axis` with a fixed non-zero axis. -/
theorem rotation_then_inverse_rotation (v : vector3 ℝ) (θ : ℝ) (axis : vector3 ℝ)
    (h : axis ≠ vector3.ZERO) :
    (v * matrix3x3.rotation_around_x_axis Real.cos Real.sin θ)
        * matrix3x3.rotation_around_x_axis Real.cos Real.sin (-θ) = v
    ∧ (v * matrix3x3.rotation_around_y_axis Real.cos Real.sin θ)
        * matrix3x3.rotation_around_y_axis Real.cos Real.sin (-θ) = v
    ∧ (v * matrix3x3.rotation_around_z_axis Real.cos Real.sin θ)
        * matrix3x3.rotation_around_z_axis Real.cos Real.sin (-θ) = v
    ∧ (v * matrix3x3.rotation_around_axis Real.sqrt Real.cos Real.sin axis θ)
        * matrix3x3.rotation_around_axis Real.sqrt Real.cos Real.sin axis (-θ) = v := by
  have hcs := cos_mul_self_add_sin_mul_self θ
  obtain ⟨hx, hy, hz⟩ := named_axis_there_and_back _ _ v hcs
  have ha := axis_angle_there_and_back _ _ _ _ _ v (axis.normalized_unit h) hcs
  simp only [matrix3x3.rotation_around_x_axis, matrix3x3.rotation_around_y_axis,
    matrix3x3.rotation_around_z_axis, matrix3x3.rotation_around_axis,
    Real.cos_neg, Real.sin_neg]
  exact ⟨hx, hy, hz, ha⟩

/-- C6: rotating by a full turn returns the original vector, `v * R (2π) = v`,
for `R` any of the three named axis rotations or `rotation_around_axis` with a
non-zero axis; the matrix `R (2π)` is the identity matrix. -/
theorem rotation_full_turn (v : vector3 ℝ) (axis : vector3 ℝ) (_h : axis ≠ vector3.ZERO) :
    (v * matrix3x3.rotation_around_x_axis Real.cos Real.sin (2 * Real.pi) = v
      ∧ v * matrix3x3.rotation_around_y_axis Real.cos Real.sin (2 * Real.pi) = v
      ∧ v * matrix3x3.rotation_around_z_axis Real.cos Real.sin (2 * Real.pi) = v
      ∧ v * matrix3x3.rotation_around_axis Real.sqrt Real.cos Real.sin axis (2 * Real.pi) = v)
    ∧ (matrix3x3.rotation_around_x_axis Real.cos Real.sin (2 * Real.pi) = matrix3x3.IDENTITY
      ∧ matrix3x3.rotation_around_y_axis Real.cos Real.sin (2 * Real.pi) = matrix3x3.IDENTITY
      ∧ matrix3x3.rotation_around_z_axis Real.cos Real.sin (2 * Real.pi) = matrix3x3.IDENTITY
      ∧ matrix3x3.rotation_around_axis Real.sqrt Real.cos Real.sin axis (2 * Real.pi)
          = matrix3x3.IDENTITY) := by
  obtain ⟨hx, hy, hz, ha⟩ := rotation_two_pi_eq_identity axis
  refine ⟨⟨?_, ?_, ?_, ?_⟩, hx, hy, hz, ha⟩
  · rw [hx]; exact v.mul_identity
  · rw [hy]; exact v.mul_identity
  · rw [hz]; exact v.mul_identity
  · rw [ha]; exact v.mul_identity

/-- C7: for every angle `θ`, `rotation_around_x_axis θ` has row 0 = `[1, 0, 0]`,
row 1 = `[0, cos θ, sin θ]`, row 2 = `[0, -sin θ, cos θ]`. -/
theorem rotation_around_x_axis_rows (θ : ℝ) :
    (matrix3x3.rotation_around_x_axis Real.cos Real.sin θ).row 0 = ⟨1, 0, 0⟩
    ∧ (matrix3x3.rotation_around_x_axis Real.cos Real.sin θ).row 1
        = ⟨0, Real.cos θ, Real.sin θ⟩
    ∧ (matrix3x3.rotation_around_x_axis Real.cos Real.sin θ).row 2
        = ⟨0, -Real.sin θ, Real.cos θ⟩ :=
  ⟨rfl, rfl, rfl⟩

/-- C8: `rotation_around_axis` implements Rodrigues' formula on the normalized
axis: for a non-zero axis `a` with `k = a / |a|`,
`v * rotation_around_axis a θ = v·cos θ + (k × v)·sin θ + k·(k · v)·(1 − cos θ)`. -/
theorem rotation_around_axis_is_rodrigues (a v : vector3 ℝ) (θ : ℝ)
    (_h : a ≠ vector3.ZERO) :
    v * matrix3x3.rotation_around_axis Real.sqrt Real.cos Real.sin a θ
      = rodrigues_formula (unit_axis Real.sqrt a) (Real.cos θ) (Real.sin θ) v := by
  simp only [vector3.mul_matrix3_def, vector3.mul_matrix, matrix3x3.rotation_around_axis,
    vector3.normalized, vector3.length, rodrigues_formula, unit_axis, vector3.add,
    vector3.smul, vector3.cross, vector3.dot]
  ext <;> simp only [] <;> ring

/-- C4 witness: the axis `(1, 2, 2)` is non-zero, and at the angle `π / 2` all
four constructors give orthonormal rows. -/
theorem rotation_matrices_orthonormal_witness :
    (⟨1, 2, 2⟩ : vector3 ℝ) ≠ vector3.ZERO
    ∧ (matrix3x3.rotation_around_x_axis Real.cos Real.sin (Real.pi / 2)).rows_orthonormal
    ∧ (matrix3x3.rotation_around_y_axis Real.cos Real.sin (Real.pi / 2)).rows_orthonormal
    ∧ (matrix3x3.rotation_around_z_axis Real.cos Real.sin (Real.pi / 2)).rows_orthonormal
    ∧ (matrix3x3.rotation_around_axis Real.sqrt Real.cos Real.sin ⟨1, 2, 2⟩
        (Real.pi / 2)).rows_orthonormal :=
  have hne : (⟨1, 2, 2⟩ : vector3 ℝ) ≠ vector3.ZERO := by
    intro h
    have hx := congrArg vector3.x h
    simp [vector3.ZERO] at hx
  ⟨hne, rotation_matrices_orthonormal (Real.pi / 2) ⟨1, 2, 2⟩ hne⟩

/-- C5 witness: with the non-zero axis `(0, 3, 4)`, the vector `(1, 2, 3)` and
the angle `1`, rotating there and back returns `(1, 2, 3)`. -/
theorem rotation_then_inverse_rotation_witness :
    (⟨0, 3, 4⟩ : vector3 ℝ) ≠ vector3.ZERO
    ∧ ((⟨1, 2, 3⟩ : vector3 ℝ) * matrix3x3.rotation_around_x_axis Real.cos Real.sin 1)
        * matrix3x3.rotation_around_x_axis Real.cos Real.sin (-1) = ⟨1, 2, 3⟩
    ∧ ((⟨1, 2, 3⟩ : vector3 ℝ) * matrix3x3.rotation_around_y_axis Real.cos Real.sin 1)
        * matrix3x3.rotation_around_y_axis Real.cos Real.sin (-1) = ⟨1, 2, 3⟩
    ∧ ((⟨1, 2, 3⟩ : vector3 ℝ) * matrix3x3.rotation_around_z_axis Real.cos Real.sin 1)
        * matrix3x3.rotation_around_z_axis Real.cos Real.sin (-1) = ⟨1, 2, 3⟩
    ∧ ((⟨1, 2, 3⟩ : vector3 ℝ)
          * matrix3x3.rotation_around_axis Real.sqrt Real.cos Real.sin ⟨0, 3, 4⟩ 1)
        * matrix3x3.rotation_around_axis Real.sqrt Real.cos Real.sin ⟨0, 3, 4⟩ (-1)
        = ⟨1, 2, 3⟩ :=
  have hne : (⟨0, 3, 4⟩ : vector3 ℝ) ≠ vector3.ZERO := by
    intro h
    have hy := congrArg vector3.y h
    simp [vector3.ZERO] at hy
  ⟨hne, rotation_then_inverse_rotation ⟨1, 2, 3⟩ 1 ⟨0, 3, 4⟩ hne⟩

/-- C6 witness: with the non-zero axis `(2, 0, 0)`, a full turn returns the
vector `(1, 2, 3)`. -/
theorem rotation_full_turn_witness :
    (⟨2, 0, 0⟩ : vector3 ℝ) ≠ vector3.ZERO
    ∧ (⟨1, 2, 3⟩ : vector3 ℝ)
        * matrix3x3.rotation_around_axis Real.sqrt Real.cos Real.sin ⟨2, 0, 0⟩ (2 * Real.pi)
        = ⟨1, 2, 3⟩ :=
  have hne : (⟨2, 0, 0⟩ : vector3 ℝ) ≠ vector3.ZERO := by
    intro h
    have hx := congrArg vector3.x h
    simp [vector3.ZERO] at hx
  ⟨hne, (rotation_full_turn ⟨1, 2, 3⟩ ⟨2, 0, 0⟩ hne).1.2.2.2⟩

/-- C8 witness: with the non-zero axis `(0, 0, 5)` and the angle `π / 3`, the
transform of `(1, 2, 3)` is the value of Rodrigues' formula. -/
theorem rotation_around_axis_is_rodrigues_witness :
    (⟨0, 0, 5⟩ : vector3 ℝ) ≠ vector3.ZERO
    ∧ (⟨1, 2, 3⟩ : vector3 ℝ)
        * matrix3x3.rotation_around_axis Real.sqrt Real.cos Real.sin ⟨0, 0, 5⟩ (Real.pi / 3)
        = rodrigues_formula (unit_axis Real.sqrt ⟨0, 0, 5⟩) (Real.cos (Real.pi / 3))
            (Real.sin (Real.pi / 3)) ⟨1, 2, 3⟩ :=
  have hne : (⟨0, 0, 5⟩ : vector3 ℝ) ≠ vector3.ZERO := by
    intro h
    have hz := congrArg vector3.z h
    simp [vector3.ZERO] at hz
  ⟨hne, rotation_around_axis_is_rodrigues ⟨0, 0, 5⟩ ⟨1, 2, 3⟩ (Real.pi / 3) hne⟩

/-- C9 as stated fails: with `v = (1, 0, 0)`, `A` the quarter turn about z and
`B` the quarter turn about x, `v * (A * B) = (0, 0, 1)` while
`(v * B) * A = (0, 1, 0)`. -/
theorem rightmost_factor_first_fails :
    (⟨1, 0, 0⟩ : vector3 ℝ)
        * ((⟨0, 1, 0, -1, 0, 0, 0, 0, 1⟩ : matrix3x3 ℝ) * ⟨1, 0, 0, 0, 0, 1, 0, -1, 0⟩)
      = ⟨0, 0, 1⟩
    ∧ ((⟨1, 0, 0⟩ : vector3 ℝ) * (⟨1, 0, 0, 0, 0, 1, 0, -1, 0⟩ : matrix3x3 ℝ))
        * (⟨0, 1, 0, -1, 0, 0, 0, 0, 1⟩ : matrix3x3 ℝ)
      = ⟨0, 1, 0⟩
    ∧ (⟨1, 0, 0⟩ : vector3 ℝ)
        * ((⟨0, 1, 0, -1, 0, 0, 0, 0, 1⟩ : matrix3x3 ℝ) * ⟨1, 0, 0, 0, 0, 1, 0, -1, 0⟩)
      ≠ ((⟨1, 0, 0⟩ : vector3 ℝ) * (⟨1, 0, 0, 0, 0, 1, 0, -1, 0⟩ : matrix3x3 ℝ))
        * (⟨0, 1, 0, -1, 0, 0, 0, 0, 1⟩ : matrix3x3 ℝ) := by
  refine ⟨?_, ?_, ?_⟩
  · simp [matrix3x3.mul3_def, vector3.mul_matrix3_def, matrix3x3.mul, vector3.mul_matrix]
  · simp [vector3.mul_matrix3_def, vector3.mul_matrix]
  · intro h
    have hy := congrArg vector3.y h
    simp [matrix3x3.mul3_def, vector3.mul_matrix3_def, matrix3x3.mul, vector3.mul_matrix] at hy

/-- C9 amended: composition under the row-vector convention applies the
leftmost factor first: transforming `v` by `A * B` equals applying `A` to `v`
first and then `B`, `v * (A * B) = (v * A) * B`, in exact arithmetic (any
commutative ring of scalars). -/
theorem leftmost_factor_first {α : Type} [CommRing α] (v : vector3 α) (A B : matrix3x3 α) :
    v * (A * B) = (v * A) * B :=
  vector3.mul_matrix_mul v A B

/-- The 4-component row-vector transform distributes over the 4x4 product with
the left factor applied first. -/
theorem vector4.mul_matrix4_mul {α : Type} [CommRing α] (v : vector4 α) (a b : matrix4x4 α) :
    v * (a * b) = (v * a) * b := by
  simp only [matrix4x4.mul4_def, vector4.mul_matrix4_def, matrix4x4.mul, vector4.mul_matrix]
  ext <;> simp only [] <;> ring

/-- The three named axis rotations for `(c₁, s₁)` and `(c₂, s₂)` multiply to
the ones for `(c₁ c₂ − s₁ s₂, s₁ c₂ + c₁ s₂)`. -/
theorem named_axis_mul (c₁ s₁ c₂ s₂ : ℝ) :
    (⟨1, 0, 0, 0, c₁, s₁, 0, -s₁, c₁⟩ : matrix3x3 ℝ) * ⟨1, 0, 0, 0, c₂, s₂, 0, -s₂, c₂⟩
      = ⟨1, 0, 0, 0, c₁ * c₂ - s₁ * s₂, s₁ * c₂ + c₁ * s₂,
         0, -(s₁ * c₂ + c₁ * s₂), c₁ * c₂ - s₁ * s₂⟩
    ∧ (⟨c₁, 0, -s₁, 0, 1, 0, s₁, 0, c₁⟩ : matrix3x3 ℝ) * ⟨c₂, 0, -s₂, 0, 1, 0, s₂, 0, c₂⟩
      = ⟨c₁ * c₂ - s₁ * s₂, 0, -(s₁ * c₂ + c₁ * s₂), 0, 1, 0,
         s₁ * c₂ + c₁ * s₂, 0, c₁ * c₂ - s₁ * s₂⟩
    ∧ (⟨c₁, s₁, 0, -s₁, c₁, 0, 0, 0, 1⟩ : matrix3x3 ℝ) * ⟨c₂, s₂, 0, -s₂, c₂, 0, 0, 0, 1⟩
      = ⟨c₁ * c₂ - s₁ * s₂, s₁ * c₂ + c₁ * s₂, 0,
         -(s₁ * c₂ + c₁ * s₂), c₁ * c₂ - s₁ * s₂, 0, 0, 0, 1⟩ := by
  refine ⟨?_, ?_, ?_⟩ <;>
    (simp only [matrix3x3.mul3_def, matrix3x3.mul]
     ext <;> simp only [] <;> ring)

/-- With one common non-zero clip `w` and weights summing to one, each
renormalized weight has a value, the weight itself. -/
theorem perspective_weight_common_w {α : Type} [Field α] [DecidableEq α]
    (wi w0 w1 w2 W : α) (hsum : w0 + w1 + w2 = 1) (hW : W ≠ 0) :
    perspective_weight wi W w0 w1 w2 W W W = some wi := by
  have htotal : w0 / W + w1 / W + w2 / W = 1 / W := by
    rw [← add_div, ← add_div, hsum]
  have hne : (1 : α) / W ≠ 0 := one_div_ne_zero hW
  unfold perspective_weight
  rw [htotal, if_neg (by simp [hW])]
  congr 1
  field_simp

/-- After `update_shader_mvp` the shader that `m_shader_option` named on entry
holds the product of the stage matrices, in the order of the source. -/
theorem update_shader_mvp_hands_product {α : Type} [Zero α] [One α] [Neg α] [Add α] [Mul α]
    (ext : collaborators α) (app : rasterized_color_triangle_app α) :
    (rasterized_color_triangle_app.update_shader_mvp ext app).mvp_of app.m_shader_option
      = rasterized_color_triangle_app.local_to_world_transform ext app
          * (rasterized_color_triangle_app.camera_translation app.m_camera
              * rasterized_color_triangle_app.camera_rotation app.m_camera)
          * rasterized_color_triangle_app.camera_to_clip_transform ext app.m_camera := by
  unfold rasterized_color_triangle_app.update_shader_mvp
  cases hopt : app.m_shader_option <;>
    simp [rasterized_color_triangle_app.mvp_of, shader.set_mvp_matrix,
      rasterized_color_triangle_app.local_to_clip_transform,
      rasterized_color_triangle_app.world_to_camera_transform, hopt]

/-- Normalizing a positive multiple of a coordinate axis gives that axis. -/
theorem vector3.normalized_axis_multiple (t : ℝ) (ht : 0 < t) :
    (⟨t, 0, 0⟩ : vector3 ℝ).normalized Real.sqrt = ⟨1, 0, 0⟩
    ∧ (⟨0, t, 0⟩ : vector3 ℝ).normalized Real.sqrt = ⟨0, 1, 0⟩
    ∧ (⟨0, 0, t⟩ : vector3 ℝ).normalized Real.sqrt = ⟨0, 0, 1⟩ := by
  have hs : Real.sqrt (t * t) = t := Real.sqrt_mul_self ht.le
  have ht0 : t ≠ 0 := ht.ne.symm
  refine ⟨?_, ?_, ?_⟩ <;>
    simp [vector3.normalized, vector3.length, hs, ht0]

/-- The arbitrary-axis constructor at a positive multiple of a coordinate axis
is the named constructor of that axis. -/
theorem rotation_around_axis_multiple (θ t : ℝ) (ht : 0 < t) :
    matrix3x3.rotation_around_axis Real.sqrt Real.cos Real.sin ⟨t, 0, 0⟩ θ
      = matrix3x3.rotation_around_x_axis Real.cos Real.sin θ
    ∧ matrix3x3.rotation_around_axis Real.sqrt Real.cos Real.sin ⟨0, t, 0⟩ θ
      = matrix3x3.rotation_around_y_axis Real.cos Real.sin θ
    ∧ matrix3x3.rotation_around_axis Real.sqrt Real.cos Real.sin ⟨0, 0, t⟩ θ
      = matrix3x3.rotation_around_z_axis Real.cos Real.sin θ := by
  obtain ⟨hx, hy, hz⟩ := vector3.normalized_axis_multiple t ht
  refine ⟨?_, ?_, ?_⟩
  · simp [matrix3x3.rotation_around_axis, matrix3x3.rotation_around_x_axis, hx]
  · simp [matrix3x3.rotation_around_axis, matrix3x3.rotation_around_y_axis, hy]
  · simp [matrix3x3.rotation_around_axis, matrix3x3.rotation_around_z_axis, hz]

/-- The axis-angle matrix has determinant 1 for a unit axis and `c² + s² = 1`. -/
theorem axis_angle_determinant (kx ky kz c s : ℝ)
    (hk : kx * kx + ky * ky + kz * kz = 1) (hcs : c * c + s * s = 1) :
    (⟨kx * kx * (1 - c) + c, kx * ky * (1 - c) + kz * s, kx * kz * (1 - c) - ky * s,
      kx * ky * (1 - c) - kz * s, ky * ky * (1 - c) + c, ky * kz * (1 - c) + kx * s,
      kx * kz * (1 - c) + ky * s, ky * kz * (1 - c) - kx * s, kz * kz * (1 - c) + c⟩ :
      matrix3x3 ℝ).determinant = 1 := by
  simp only [matrix3x3.determinant]
  linear_combination
    (s ^ 2 + (1 - c) * (c * c + s * s)
      + (1 - c) * s ^ 2 * (kx * kx + ky * ky + kz * kz - 1)) * hk + hcs

/-- The three named axis rotations have determinant 1 when `c² + s² = 1`. -/
theorem named_axis_determinant (c s : ℝ) (hcs : c * c + s * s = 1) :
    (⟨1, 0, 0, 0, c, s, 0, -s, c⟩ : matrix3x3 ℝ).determinant = 1
    ∧ (⟨c, 0, -s, 0, 1, 0, s, 0, c⟩ : matrix3x3 ℝ).determinant = 1
    ∧ (⟨c, s, 0, -s, c, 0, 0, 0, 1⟩ : matrix3x3 ℝ).determinant = 1 := by
  refine ⟨?_, ?_, ?_⟩ <;>
    (simp only [matrix3x3.determinant]
     linear_combination hcs)

/-- After `update_shader_mvp` the shader that `m_shader_option` names holds the
local-to-clip matrix of the state. -/
theorem update_shader_mvp_selected {α : Type} [Zero α] [One α] [Neg α] [Add α] [Mul α]
    (ext : collaborators α)
    (app : rasterized_color_triangle_app α) :
    (rasterized_color_triangle_app.update_shader_mvp ext app).mvp_of
        (rasterized_color_triangle_app.update_shader_mvp ext app).m_shader_option
      = rasterized_color_triangle_app.local_to_clip_transform ext
          (rasterized_color_triangle_app.update_shader_mvp ext app) := by
  unfold rasterized_color_triangle_app.update_shader_mvp
  cases hopt : app.m_shader_option <;>
    simp [rasterized_color_triangle_app.mvp_of, shader.set_mvp_matrix,
      rasterized_color_triangle_app.local_to_clip_transform,
      rasterized_color_triangle_app.local_to_world_transform, hopt]

/-- The method `update_shader_mvp` changes neither the camera nor the option. -/
theorem update_shader_mvp_keeps {α : Type} [Zero α] [One α] [Neg α] [Add α] [Mul α]
    (ext : collaborators α)
    (app : rasterized_color_triangle_app α) :
    (rasterized_color_triangle_app.update_shader_mvp ext app).m_camera = app.m_camera
    ∧ (rasterized_color_triangle_app.update_shader_mvp ext app).m_shader_option
      = app.m_shader_option := by
  unfold rasterized_color_triangle_app.update_shader_mvp
  split <;> exact ⟨rfl, rfl⟩

/-- The method `update_shader_mvp` leaves the shader that `m_shader_option` does
not name as it was. -/
theorem update_shader_mvp_other {α : Type} [Zero α] [One α] [Neg α] [Add α] [Mul α]
    (ext : collaborators α)
    (app : rasterized_color_triangle_app α) :
    (rasterized_color_triangle_app.update_shader_mvp ext app).mvp_of
        (rasterized_color_triangle_app.update_shader_mvp ext app).m_shader_option.other
      = app.mvp_of
        (rasterized_color_triangle_app.update_shader_mvp ext app).m_shader_option.other := by
  unfold rasterized_color_triangle_app.update_shader_mvp
  cases hopt : app.m_shader_option <;>
    simp [rasterized_color_triangle_app.mvp_of, shader_option.other, hopt]

/-- The branches of `on_key_down` write to neither shader. -/
theorem key_branches_keep_shaders {α : Type} (app : rasterized_color_triangle_app α)
    (c : camera α) (o o' : shader_option) :
    (app.with_camera c).mvp_of o' = app.mvp_of o'
    ∧ (app.with_shader_option o).mvp_of o' = app.mvp_of o' := by
  cases o' <;> exact ⟨rfl, rfl⟩

/-! ## Claims, continued -/

/-- C13: `matrix3x3::operator*` is not commutative: the quarter turns about x
and about y do not commute, so there are `A`, `B` with `A * B ≠ B * A`. -/
theorem matrix3x3_mul_not_commutative :
    matrix3x3.rotation_around_x_axis Real.cos Real.sin (Real.pi / 2)
        * matrix3x3.rotation_around_y_axis Real.cos Real.sin (Real.pi / 2)
      ≠ matrix3x3.rotation_around_y_axis Real.cos Real.sin (Real.pi / 2)
        * matrix3x3.rotation_around_x_axis Real.cos Real.sin (Real.pi / 2)
    ∧ ∃ A B : matrix3x3 ℝ, A * B ≠ B * A := by
  have hne : matrix3x3.rotation_around_x_axis Real.cos Real.sin (Real.pi / 2)
        * matrix3x3.rotation_around_y_axis Real.cos Real.sin (Real.pi / 2)
      ≠ matrix3x3.rotation_around_y_axis Real.cos Real.sin (Real.pi / 2)
        * matrix3x3.rotation_around_x_axis Real.cos Real.sin (Real.pi / 2) := by
    intro h
    have h02 := congrArg matrix3x3.m02 h
    simp [matrix3x3.mul3_def, matrix3x3.mul, matrix3x3.rotation_around_x_axis,
      matrix3x3.rotation_around_y_axis] at h02
  exact ⟨hne, _, _, hne⟩

/-- C14: the vector transform is compatible with the matrix product, leftmost
factor applied first: `v * (A * B) = (v * A) * B`. -/
theorem vector_transform_compatible_with_product {α : Type} [CommRing α]
    (v : vector3 α) (A B : matrix3x3 α) :
    v * (A * B) = (v * A) * B :=
  vector3.mul_matrix_mul v A B

/-- C15: rotations about one axis compose by adding angles,
`R α * R β = R (α + β)` for `rotation_around_x_axis`, `rotation_around_y_axis`
and `rotation_around_z_axis`, and the rotation by the angle 0 is the identity
matrix. -/
theorem same_axis_rotations_add_angles (a b : ℝ) :
    (matrix3x3.rotation_around_x_axis Real.cos Real.sin a
        * matrix3x3.rotation_around_x_axis Real.cos Real.sin b
      = matrix3x3.rotation_around_x_axis Real.cos Real.sin (a + b)
    ∧ matrix3x3.rotation_around_y_axis Real.cos Real.sin a
        * matrix3x3.rotation_around_y_axis Real.cos Real.sin b
      = matrix3x3.rotation_around_y_axis Real.cos Real.sin (a + b)
    ∧ matrix3x3.rotation_around_z_axis Real.cos Real.sin a
        * matrix3x3.rotation_around_z_axis Real.cos Real.sin b
      = matrix3x3.rotation_around_z_axis Real.cos Real.sin (a + b))
    ∧ (matrix3x3.rotation_around_x_axis Real.cos Real.sin 0 = matrix3x3.IDENTITY
      ∧ matrix3x3.rotation_around_y_axis Real.cos Real.sin 0 = matrix3x3.IDENTITY
      ∧ matrix3x3.rotation_around_z_axis Real.cos Real.sin 0 = matrix3x3.IDENTITY) := by
  obtain ⟨hx, hy, hz⟩ := named_axis_mul (Real.cos a) (Real.sin a) (Real.cos b) (Real.sin b)
  refine ⟨⟨?_, ?_, ?_⟩, ?_, ?_, ?_⟩
  · simp only [matrix3x3.rotation_around_x_axis, Real.cos_add, Real.sin_add]
    exact hx
  · simp only [matrix3x3.rotation_around_y_axis, Real.cos_add, Real.sin_add]
    exact hy
  · simp only [matrix3x3.rotation_around_z_axis, Real.cos_add, Real.sin_add]
    exact hz
  · simp [matrix3x3.rotation_around_x_axis, matrix3x3.IDENTITY]
  · simp [matrix3x3.rotation_around_y_axis, matrix3x3.IDENTITY]
  · simp [matrix3x3.rotation_around_z_axis, matrix3x3.IDENTITY]

/-- C16 as stated fails on binary32: at the angle `float(π) / 2` the entry
`[0][0]` of `rotation_around_axis((1,0,0), θ)` is `1*1*(1-c)+c` rounded, that is
`(2^24 - 1) * 2^-24 = 0.99999994`, while `rotation_around_x_axis(θ)` has `1`. -/
theorem rotation_around_axis_differs_in_binary32 :
    (matrix3x3.rotation_around_axis binary32.sqrt_at_one binary32.cos_at_half_pi
        binary32.sin_at_half_pi ⟨1, 0, 0⟩ binary32.half_pi).m00
      = binary32.finite ((2 ^ 24 - 1) * 2 ^ 125)
    ∧ (matrix3x3.rotation_around_x_axis binary32.cos_at_half_pi binary32.sin_at_half_pi
        binary32.half_pi).m00 = 1
    ∧ matrix3x3.rotation_around_axis binary32.sqrt_at_one binary32.cos_at_half_pi
        binary32.sin_at_half_pi ⟨1, 0, 0⟩ binary32.half_pi
      ≠ matrix3x3.rotation_around_x_axis binary32.cos_at_half_pi binary32.sin_at_half_pi
        binary32.half_pi := by
  decide!

/-- C16 amended: in exact real arithmetic the arbitrary-axis constructor agrees
with the three named axis constructors,
`rotation_around_axis (1,0,0) θ = rotation_around_x_axis θ`,
likewise for `(0,1,0)` and `(0,0,1)`, and the same for every positive multiple
`t` of those axes. -/
theorem rotation_around_axis_agrees_with_named (θ t : ℝ) (ht : 0 < t) :
    (matrix3x3.rotation_around_axis Real.sqrt Real.cos Real.sin ⟨1, 0, 0⟩ θ
        = matrix3x3.rotation_around_x_axis Real.cos Real.sin θ
      ∧ matrix3x3.rotation_around_axis Real.sqrt Real.cos Real.sin ⟨0, 1, 0⟩ θ
        = matrix3x3.rotation_around_y_axis Real.cos Real.sin θ
      ∧ matrix3x3.rotation_around_axis Real.sqrt Real.cos Real.sin ⟨0, 0, 1⟩ θ
        = matrix3x3.rotation_around_z_axis Real.cos Real.sin θ)
    ∧ (matrix3x3.rotation_around_axis Real.sqrt Real.cos Real.sin ⟨t, 0, 0⟩ θ
        = matrix3x3.rotation_around_x_axis Real.cos Real.sin θ
      ∧ matrix3x3.rotation_around_axis Real.sqrt Real.cos Real.sin ⟨0, t, 0⟩ θ
        = matrix3x3.rotation_around_y_axis Real.cos Real.sin θ
      ∧ matrix3x3.rotation_around_axis Real.sqrt Real.cos Real.sin ⟨0, 0, t⟩ θ
        = matrix3x3.rotation_around_z_axis Real.cos Real.sin θ) :=
  ⟨rotation_around_axis_multiple θ 1 one_pos, rotation_around_axis_multiple θ t ht⟩

/-- C16 witness: at the angle `π / 6` and the positive multiple `t = 2`. -/
theorem rotation_around_axis_agrees_with_named_witness :
    (0 : ℝ) < 2
    ∧ matrix3x3.rotation_around_axis Real.sqrt Real.cos Real.sin ⟨0, 2, 0⟩ (Real.pi / 6)
      = matrix3x3.rotation_around_y_axis Real.cos Real.sin (Real.pi / 6) :=
  ⟨two_pos, (rotation_around_axis_agrees_with_named (Real.pi / 6) 2 two_pos).2.2.1⟩

/-- C17: every rotation constructor yields a proper rotation: for every angle
and every non-zero axis the determinants of `rotation_around_x_axis θ`,
`rotation_around_y_axis θ`, `rotation_around_z_axis θ` and
`rotation_around_axis a θ` all equal 1. -/
theorem rotation_determinants_one (θ : ℝ) (a : vector3 ℝ) (h : a ≠ vector3.ZERO) :
    (matrix3x3.rotation_around_x_axis Real.cos Real.sin θ).determinant = 1
    ∧ (matrix3x3.rotation_around_y_axis Real.cos Real.sin θ).determinant = 1
    ∧ (matrix3x3.rotation_around_z_axis Real.cos Real.sin θ).determinant = 1
    ∧ (matrix3x3.rotation_around_axis Real.sqrt Real.cos Real.sin a θ).determinant = 1 := by
  have hcs := cos_mul_self_add_sin_mul_self θ
  obtain ⟨hx, hy, hz⟩ := named_axis_determinant _ _ hcs
  exact ⟨hx, hy, hz, axis_angle_determinant _ _ _ _ _ (a.normalized_unit h) hcs⟩

/-- C17 witness: the axis `(2, 3, 6)` is non-zero, and at the angle `π / 4` all
four determinants are 1. -/
theorem rotation_determinants_one_witness :
    (⟨2, 3, 6⟩ : vector3 ℝ) ≠ vector3.ZERO
    ∧ (matrix3x3.rotation_around_x_axis Real.cos Real.sin (Real.pi / 4)).determinant = 1
    ∧ (matrix3x3.rotation_around_y_axis Real.cos Real.sin (Real.pi / 4)).determinant = 1
    ∧ (matrix3x3.rotation_around_z_axis Real.cos Real.sin (Real.pi / 4)).determinant = 1
    ∧ (matrix3x3.rotation_around_axis Real.sqrt Real.cos Real.sin ⟨2, 3, 6⟩
        (Real.pi / 4)).determinant = 1 :=
  have hne : (⟨2, 3, 6⟩ : vector3 ℝ) ≠ vector3.ZERO := by
    intro h
    have hx := congrArg vector3.x h
    simp [vector3.ZERO] at hx
  ⟨hne, rotation_determinants_one (Real.pi / 4) ⟨2, 3, 6⟩ hne⟩

/-- C18: the currently selected shader always holds the local-to-clip matrix of
the current camera state: after construction and after every `on_key_down`
event the matrix stored in the shader named by `m_shader_option` equals the
matrix `update_shader_mvp` computes from the current camera, and the event
leaves the other shader's matrix unchanged. -/
theorem selected_shader_holds_current_mvp {α : Type} [Field α] (ext : collaborators α)
    (width height : Nat) (app : rasterized_color_triangle_app α) (key : SDL_Keysym) :
    (rasterized_color_triangle_app.construct ext width height).mvp_of
        (rasterized_color_triangle_app.construct ext width height).m_shader_option
      = rasterized_color_triangle_app.local_to_clip_transform ext
          (rasterized_color_triangle_app.construct ext width height)
    ∧ (rasterized_color_triangle_app.on_key_down ext app key).mvp_of
        (rasterized_color_triangle_app.on_key_down ext app key).m_shader_option
      = rasterized_color_triangle_app.local_to_clip_transform ext
          (rasterized_color_triangle_app.on_key_down ext app key)
    ∧ (rasterized_color_triangle_app.on_key_down ext app key).mvp_of
        (rasterized_color_triangle_app.on_key_down ext app key).m_shader_option.other
      = app.mvp_of
          (rasterized_color_triangle_app.on_key_down ext app key).m_shader_option.other := by
  refine ⟨?_, ?_, ?_⟩
  · unfold rasterized_color_triangle_app.construct
    exact update_shader_mvp_selected ext _
  · unfold rasterized_color_triangle_app.on_key_down
    exact update_shader_mvp_selected ext _
  · unfold rasterized_color_triangle_app.on_key_down
    simp only []
    rw [update_shader_mvp_other]
    generalize (rasterized_color_triangle_app.update_shader_mvp ext _).m_shader_option.other
      = o
    have hc : ∀ c, (app.with_camera c).mvp_of o = app.mvp_of o :=
      fun c => (key_branches_keep_shaders app c shader_option.color o).1
    have ho : ∀ o2, (app.with_shader_option o2).mvp_of o = app.mvp_of o :=
      fun o2 => (key_branches_keep_shaders app app.m_camera o2 o).2
    repeat' split
    all_goals first | exact hc _ | exact ho _

end lantern
